import Mathlib

/-!
Verification of the semantica-teaching-assistant audio-capture,
speech-session and turn-submission core.

The definitions below are a shallow embedding of the client audio pipeline
(SpeechTester components), the server speech-session handler
(src/server/speech.ts) and the Azure batch transcription provider
(src/server/clients/azure-transcription-client.ts).  Machine arithmetic is
modelled over ℚ and ℤ with the ECMAScript conversions made explicit;
callback-driven code is modelled as step functions over explicit state,
driven by lists of events.
-/

namespace STA

/-- Whitespace test of the trim operations appearing in the sources,
restricted to the characters relevant here: space, tab, line feed and
carriage return. -/
def isJsWs (c : Char) : Bool :=
  c == ' ' || c == Char.ofNat 9 || c == Char.ofNat 10 || c == Char.ofNat 13

/-- Structural model of the trim used by the client and the server (JS
String.prototype.trim): drops leading and trailing whitespace.  Defined
by structural recursion so that concrete inputs evaluate inside the
kernel. -/
def jsTrim (s : String) : String :=
  String.mk (((s.data.dropWhile isJsWs).reverse.dropWhile isJsWs).reverse)

end STA

/-! ## PCM sample conversion (processor.onaudioprocess) -/

namespace STA.Pcm

/-- JS clamp performed on each input sample:
Math.max(-1, Math.min(1, sample)).  Samples are float32 values; all the
arithmetic the callback performs on them is exact in binary64, so the
computation embeds faithfully into ℚ. -/
def clampSample (s : ℚ) : ℚ := max (-1) (min 1 s)

/-- Truncation toward zero, as in step 3 of the ECMAScript ToInt16
abstract operation (truncate). -/
def ratTrunc (q : ℚ) : ℤ := if q < 0 then Int.ceil q else Int.floor q

/-- ECMAScript ToInt16: truncate, wrap modulo 2^16, reinterpret the top
half of the residue range as negative.  This is the conversion applied by
an assignment into an Int16Array element. -/
def toInt16 (q : ℚ) : ℤ :=
  let i := ratTrunc q
  let b := i % 65536
  if 32768 ≤ b then b - 65536 else b

/-- One sample of the capture callback from the SpeechTester components:
const s = Math.max(-1, Math.min(1, sample));
pcm[i] = s < 0 ? s * 0x8000 : s * 0x7fff;
where pcm is an Int16Array (so the stored value goes through ToInt16). -/
def pcmConvert (sample : ℚ) : ℤ :=
  let s := clampSample sample
  if s < 0 then toInt16 (s * 32768) else toInt16 (s * 32767)

/-- The conversion as the specification words it: negative values map to
round(s * 32768) clipped to the int16 minimum, non-negative values to
round(s * 32767).  Stated only to be compared against pcmConvert; round
is the JS Math.round convention (halves go toward positive infinity),
which agrees with Mathlib round. -/
def pcmConvertSpec (sample : ℚ) : ℤ :=
  let s := clampSample sample
  if s < 0 then max (-32768) (round (s * 32768)) else round (s * 32767)

end STA.Pcm

/-! ## Transcript accumulation (ws.onmessage in the duplex SpeechTester) -/

namespace STA.Transcript

/-- Downstream speech events, matching the SpeechEvent union of
src/server/speech.ts and the client copy. -/
inductive SpeechEvent where
  | recognizing (text : String)
  | recognized (text : String) (detectedLanguage : Option String)
  | nomatch
  | canceled (reason : String) (error : Option String)
  | sessionStopped
  | started
  | errorEv (message : String)
deriving Repr, DecidableEq

/-- Effect of one downstream message on the transcript state.  The client
handler updates the transcript only on a recognized event:
the new transcript is the previous one, a space and the event text,
concatenated and trimmed; every other event leaves it unchanged. -/
def onMessage (transcript : String) (e : SpeechEvent) : String :=
  match e with
  | .recognized t _ => jsTrim (transcript ++ " " ++ t)
  | _ => transcript

/-- Folding a whole sequence of downstream events through the handler. -/
def processEvents (transcript : String) (evs : List SpeechEvent) : String :=
  evs.foldl onMessage transcript

end STA.Transcript

/-! ## Batch transcription (transcribeAudioFile in src/server/speech.ts) -/

namespace STA.Batch

/-- One recognized segment collected by transcribeAudioFile. -/
structure Segment where
  text : String
  language : Option String
deriving Repr, DecidableEq

/-- Result shape of transcribeAudioFile. -/
structure TranscriptionResult where
  success : Bool
  text : String
  segments : List Segment
  error : Option String
deriving Repr, DecidableEq

/-- Occurrences that can reach the promise executor of transcribeAudioFile:
recognizer callbacks, the proportional processing timeout firing, and the
45 second hard timeout firing. -/
inductive BatchEvent where
  | recognized (text : String) (lang : Option String)
  | canceledError (details : String)
  | canceledEndOfStream
  | sessionStopped
  | processingTimeoutFired
  | hardTimeoutFired
deriving Repr, DecidableEq

/-- Mutable state closed over by the transcribeAudioFile executor.
resolveCount counts how many times the resolve continuation of the
promise was actually invoked (a promise resolved twice would have
resolveCount two; the resolved flag is the guard the code uses). -/
structure BatchState where
  resolved : Bool
  fullText : String
  segments : List Segment
  result : Option TranscriptionResult
  resolveCount : Nat
deriving Repr, DecidableEq

/-- Initial executor state. -/
def initBatch : BatchState :=
  { resolved := false, fullText := "", segments := [], result := none,
    resolveCount := 0 }

/-- resolveResult from transcribeAudioFile: guarded by the resolved flag,
then resolves the promise with success set iff no error, the trimmed
accumulated text and the collected segments. -/
def resolveResult (err : Option String) (st : BatchState) : BatchState :=
  if st.resolved then st
  else
    { st with
      resolved := true
      resolveCount := st.resolveCount + 1
      result := some
        { success := err.isNone
          text := jsTrim st.fullText
          segments := st.segments
          error := err } }

/-- One occurrence processed by the transcribeAudioFile executor, matching
the recognizer event handlers and the two setTimeout callbacks. -/
def transcribeStep (st : BatchState) (e : BatchEvent) : BatchState :=
  match e with
  | .recognized t lang =>
      if t != "" then
        { st with
          segments := st.segments ++ [{ text := t, language := lang }]
          fullText := if st.fullText != "" then st.fullText ++ " " ++ t else t }
      else st
  | .canceledError details =>
      resolveResult (some (if details != "" then details
                           else "Unknown transcription error")) st
  | .canceledEndOfStream => resolveResult none st
  | .sessionStopped => resolveResult none st
  | .processingTimeoutFired =>
      if st.resolved then st else resolveResult none st
  | .hardTimeoutFired =>
      if st.resolved then st else resolveResult (some "Transcription timeout") st

/-- Running the executor over a whole sequence of occurrences. -/
def transcribeRun (evs : List BatchEvent) : BatchState :=
  evs.foldl transcribeStep initBatch

/-- audioSeconds computed by transcribeAudioFile:
byteLength divided by sampleRate times two bytes per sample. -/
def audioSeconds (byteLength sampleRate : ℚ) : ℚ :=
  byteLength / (sampleRate * 2)

/-- processingTimeout in milliseconds computed by transcribeAudioFile:
Math.max(5000, (audioSeconds + 3) * 1000). -/
def processingTimeoutMs (byteLength sampleRate : ℚ) : ℚ :=
  max 5000 ((audioSeconds byteLength sampleRate + 3) * 1000)

end STA.Batch

/-! ## Speech WebSocket session open (speechWebSocket.open) and the Azure
batch provider guard (AzureTranscriptionProvider.transcribe) -/

namespace STA.Session

/-- Observable actions of the server session-open handler. -/
inductive WsAction where
  | sendErrorEvent (message : String)
  | closeConn (code : Nat) (reason : String)
  | initRecognition
deriving Repr, DecidableEq

/-- speechWebSocket.open from src/server/speech.ts: if either credential
is missing, send a single error event, hard-close the socket with policy
code 1008 and return without creating recognizer or stream; otherwise
initialize speech recognition. -/
def speechWebSocketOpen (key region : String) : List WsAction :=
  if key == "" || region == "" then
    [ .sendErrorEvent "Azure Speech credentials not configured",
      .closeConn 1008 "Azure credentials not configured" ]
  else
    [ .initRecognition ]

/-- isConfigured of AzureTranscriptionProvider:
Boolean(speechKey and speechRegion). -/
def azureIsConfigured (key region : String) : Bool :=
  key != "" && region != ""

/-- Response shape of the pluggable transcription providers. -/
structure ProviderResponse where
  text : String
  error : Option String
deriving Repr, DecidableEq

/-- Executor state of AzureTranscriptionProvider.transcribe. -/
structure AzureState where
  resolved : Bool
  textSegments : List String
  result : Option ProviderResponse
deriving Repr, DecidableEq

/-- resolveResult of the Azure provider: guard on the resolved flag, then
resolve with the space-joined trimmed segments. -/
def azureResolve (err : Option String) (st : AzureState) : AzureState :=
  if st.resolved then st
  else
    { st with
      resolved := true
      result := some
        { text := jsTrim (String.intercalate " " st.textSegments)
          error := err } }

/-- Recognizer callbacks and timeouts of the Azure provider executor. -/
def azureStep (st : AzureState) (e : STA.Batch.BatchEvent) : AzureState :=
  match e with
  | .recognized t _ =>
      if t != "" then { st with textSegments := st.textSegments ++ [t] } else st
  | .canceledError details =>
      azureResolve (some (if details != "" then details
                          else "Unknown transcription error")) st
  | .canceledEndOfStream => azureResolve none st
  | .sessionStopped => azureResolve none st
  | .processingTimeoutFired =>
      if st.resolved then st else azureResolve none st
  | .hardTimeoutFired =>
      if st.resolved then st else azureResolve (some "Transcription timeout") st

/-- Outcome of one call to AzureTranscriptionProvider.transcribe.
recognizerCreated records whether the Azure recognizer and push stream
were ever constructed; response is none while the promise is unresolved. -/
structure AzureOutcome where
  response : Option ProviderResponse
  recognizerCreated : Bool
deriving Repr, DecidableEq

/-- AzureTranscriptionProvider.transcribe: when not configured it returns
the error response at once without touching the backend; otherwise it
runs the recognizer executor over the occurrences it receives. -/
def azureTranscribe (key region : String)
    (evs : List STA.Batch.BatchEvent) : AzureOutcome :=
  if !(azureIsConfigured key region) then
    { response := some { text := "", error := some "Azure Speech credentials not configured" }
      recognizerCreated := false }
  else
    { response := (evs.foldl azureStep
        { resolved := false, textSegments := [], result := none }).result
      recognizerCreated := true }

end STA.Session

/-! ## Teardown idempotence (cleanupSpeech server side, cleanupAudio
client side in part_000 of the SpeechTester) -/

namespace STA.Cleanup

/-- Per-connection data of the speech WebSocket relevant to cleanup. -/
structure SpeechSocketData where
  cleanedUp : Bool
  recognizer : Bool
  pushStream : Bool
deriving Repr, DecidableEq

/-- Resource-release actions the server cleanup can perform. -/
inductive ServerAction where
  | stopRecognizer
  | closePushStream
deriving Repr, DecidableEq

/-- cleanupSpeech from src/server/speech.ts: guarded by the cleanedUp
flag; stops and nulls the recognizer, closes and nulls the push stream. -/
def cleanupSpeech (d : SpeechSocketData) : SpeechSocketData × List ServerAction :=
  if d.cleanedUp then (d, [])
  else
    let d1 := { d with cleanedUp := true }
    let p1 : SpeechSocketData × List ServerAction :=
      if d1.recognizer then ({ d1 with recognizer := false }, [.stopRecognizer])
      else (d1, [])
    let p2 : SpeechSocketData × List ServerAction :=
      if p1.1.pushStream then ({ p1.1 with pushStream := false }, [.closePushStream])
      else (p1.1, [])
    (p2.1, p1.2 ++ p2.2)

/-- Client-side audio resources held in refs by the batch SpeechTester. -/
structure ClientAudio where
  recordingTimer : Option Nat
  processor : Bool
  source : Bool
  analyser : Bool
  mediaTracks : Option (List Nat)
  audioCtxClosed : Option Bool
deriving Repr, DecidableEq

/-- Resource-release actions the client cleanup can perform. -/
inductive AudioAction where
  | clearTimer (id : Nat)
  | disconnectProcessor
  | disconnectSource
  | disconnectAnalyser
  | stopTrack (id : Nat)
  | closeContext
deriving Repr, DecidableEq

/-- cleanupAudio from the batch SpeechTester: clears the recording timer,
disconnects the audio nodes through optional chaining, stops every media
track, closes the audio context unless already closed, then nulls every
ref it released. -/
def cleanupAudio (c : ClientAudio) : ClientAudio × List AudioAction :=
  let acts :=
    (match c.recordingTimer with
     | some i => [AudioAction.clearTimer i]
     | none => [])
    ++ (if c.processor then [AudioAction.disconnectProcessor] else [])
    ++ (if c.source then [AudioAction.disconnectSource] else [])
    ++ (if c.analyser then [AudioAction.disconnectAnalyser] else [])
    ++ (match c.mediaTracks with
        | some ts => ts.map AudioAction.stopTrack
        | none => [])
    ++ (match c.audioCtxClosed with
        | some closed => if !closed then [AudioAction.closeContext] else []
        | none => [])
  ({ recordingTimer := none, processor := false, source := false,
     analyser := false, mediaTracks := none, audioCtxClosed := none }, acts)

end STA.Cleanup

/-! ## Recording state machine (startRecording in the duplex SpeechTester,
guarded through statusRef) -/

namespace STA.Recording

/-- Client recording status, the value held both in React state and in
statusRef (the setStatus wrapper keeps the ref in sync). -/
inductive RecStatus where
  | idle
  | connecting
  | recording
deriving Repr, DecidableEq

/-- Client state: the current status (single source of truth read through
statusRef.current) and the number of capture sessions currently holding
device and transport resources. -/
structure RecState where
  status : RecStatus
  activeSessions : Nat
deriving Repr, DecidableEq

/-- Occurrences driving the recording state machine.  startCall carries
the status value a stale closure would have captured when the delayed
restart was scheduled; the guard in the source reads statusRef.current,
never that captured value. -/
inductive RecEvent where
  | startCall (captured : RecStatus)
  | startFail
  | wsOpened
  | stopCall
  | wsClosed
deriving Repr, DecidableEq

/-- One transition of the duplex-variant recording machine.
startCall: if (statusRef.current is not idle) return; else set connecting
and begin acquiring the device and socket (a new active session).
startFail: the catch branch of startRecording, cleanup plus idle.
wsOpened: ws.onopen sets recording.
stopCall and wsClosed: close socket, cleanupAudio, idle. -/
def recStep (st : RecState) (e : RecEvent) : RecState :=
  match e with
  | .startCall _ =>
      if st.status != RecStatus.idle then st
      else { status := RecStatus.connecting, activeSessions := st.activeSessions + 1 }
  | .startFail => { status := RecStatus.idle, activeSessions := 0 }
  | .wsOpened =>
      if st.status == RecStatus.connecting then { st with status := RecStatus.recording }
      else st
  | .stopCall => { status := RecStatus.idle, activeSessions := 0 }
  | .wsClosed => { status := RecStatus.idle, activeSessions := 0 }

/-- Running the machine from the initial idle state. -/
def recRun (evs : List RecEvent) : RecState :=
  evs.foldl recStep { status := RecStatus.idle, activeSessions := 0 }

end STA.Recording

/-! ## Hands-off auto-submit timer (the hands-off useEffect of the batch
SpeechTester) -/

namespace STA.HandsOff

/-- Dependency snapshot of the hands-off effect: exactly the values in its
dependency array. -/
structure Deps where
  handsOffMode : Bool
  recordingStatus : String
  transcript : String
  isSubmitting : Bool
deriving Repr, DecidableEq

/-- A pending 3 second deadline: its timer id, its absolute deadline time,
and the dependency snapshot its callback closed over. -/
structure ArmedTimer where
  id : Nat
  deadline : Nat
  deps : Deps
deriving Repr, DecidableEq

/-- Timer-world state: all pending deadline timers and countdown
intervals, the handsOffTimeoutRef, the interval the current effect
cleanup closure would clear, lastTranscriptRef, and how many submissions
the deadline callback has triggered. -/
structure TimerState where
  nextId : Nat
  deadlines : List ArmedTimer
  intervals : List Nat
  timeoutRef : Option Nat
  armedInterval : Option Nat
  lastTranscript : String
  submissions : Nat
deriving Repr, DecidableEq

/-- Initial timer-world state. -/
def initTimers : TimerState :=
  { nextId := 0, deadlines := [], intervals := [], timeoutRef := none,
    armedInterval := none, lastTranscript := "", submissions := 0 }

/-- Arming condition of the effect body: hands-off mode on, recording
idle (the batch variant records, stops, then auto-sends), non-blank
transcript, not submitting, and the transcript differs from the last
value that armed the timer. -/
def armCond (d : Deps) (lastTranscript : String) : Bool :=
  d.handsOffMode && d.recordingStatus == "idle" && jsTrim d.transcript != ""
    && !d.isSubmitting && d.transcript != lastTranscript

/-- clearTimeout on the ref: removes the referenced deadline timer and
nulls the ref (a cleared or fired id no longer in the list is a no-op,
as for JS clearTimeout). -/
def clearTimeoutRef (st : TimerState) : TimerState :=
  match st.timeoutRef with
  | some i =>
      { st with
        deadlines := st.deadlines.filter (fun tm => tm.id != i)
        timeoutRef := none }
  | none => st

/-- clearInterval on the interval captured by the current effect. -/
def clearArmedInterval (st : TimerState) : TimerState :=
  match st.armedInterval with
  | some i =>
      { st with
        intervals := st.intervals.filter (fun j => j != i)
        armedInterval := none }
  | none => st

/-- Occurrences: a rerun of the effect at absolute time t with a fresh
dependency snapshot (React first runs the previous cleanup, then the
body), or the firing of the pending deadline. -/
inductive TimerEvent where
  | effectRun (t : Nat) (d : Deps)
  | fireDeadline
deriving Repr, DecidableEq

/-- One occurrence.  effectRun: previous cleanup clears the captured
interval and the timeout ref; the body clears the timeout ref again and,
when the arming condition holds, records the transcript in
lastTranscriptRef and starts one countdown interval plus one 3000 ms
deadline whose id is stored in the ref.  fireDeadline: the setTimeout
callback clears its own countdown interval, re-checks hands-off mode,
non-blank transcript and the submitting flag from its closure, and only
then calls handleSubmit. -/
def hoStep (st : TimerState) (e : TimerEvent) : TimerState :=
  match e with
  | .effectRun t d =>
      let st := clearArmedInterval (clearTimeoutRef st)
      let st := clearTimeoutRef st
      if armCond d st.lastTranscript then
        let intervalId := st.nextId
        let timerId := st.nextId + 1
        { st with
          nextId := st.nextId + 2
          lastTranscript := d.transcript
          intervals := st.intervals ++ [intervalId]
          armedInterval := some intervalId
          deadlines := st.deadlines ++ [{ id := timerId, deadline := t + 3000, deps := d }]
          timeoutRef := some timerId }
      else st
  | .fireDeadline =>
      match st.deadlines with
      | [] => st
      | tm :: rest =>
          let st := { st with deadlines := rest }
          let st := clearArmedInterval st
          if tm.deps.handsOffMode && jsTrim tm.deps.transcript != ""
              && !tm.deps.isSubmitting then
            { st with submissions := st.submissions + 1 }
          else st

/-- Running the timer world from the initial state. -/
def hoRun (evs : List TimerEvent) : TimerState :=
  evs.foldl hoStep initTimers

end STA.HandsOff

/-! ## Turn submission pipeline (handleSubmit of the batch SpeechTester,
with addMessage and setIsSubmitting from src/store/conversation.ts) -/

namespace STA.Turn

/-- One conversation-history entry, as appended by addMessage of the
conversation store (id and timestamp omitted: they are fresh random and
clock values with no bearing on the verified properties). -/
structure Message where
  text : String
  isAgent : Bool
deriving Repr, DecidableEq

/-- One chunk of the turn event stream. -/
inductive Chunk where
  | status (s : String)
  | conversationIdEv (id : String)
  | delta (d : String)
deriving Repr, DecidableEq

/-- Client and store state visible to handleSubmit.  streamingText stands
for both streamingTextRef and the streamingText state, which the code
keeps in lockstep.  savedConversations records the ids passed to
saveConversation. -/
structure SubmitState where
  isSubmitting : Bool
  isWaitingForResponse : Bool
  streamStatus : String
  level : String
  story : String
  sectionSel : String
  chapter : String
  lastClientStatus : String
  transcript : String
  streamingText : String
  messages : List Message
  handsOffMode : Bool
  recordingStatus : String
  handsOffTimeoutPending : Bool
  lastTranscript : String
  conversationId : String
  evaluationUpdated : Bool
  savedConversations : List String
deriving Repr, DecidableEq

/-- isDialogueComplete derived value:
store.lastClientStatus equals the literal Dialogue Reading complete. -/
def isDialogueComplete (st : SubmitState) : Bool :=
  st.lastClientStatus == "Dialogue Reading complete"

/-- isChatEmpty derived value: no messages and no streaming text. -/
def isChatEmpty (st : SubmitState) : Bool :=
  st.messages.isEmpty && st.streamingText == ""

/-- canSubmit derived value (JS truthiness of transcript.trim() is
non-emptiness of the trimmed string). -/
def canSubmit (st : SubmitState) : Bool :=
  isDialogueComplete st || jsTrim st.transcript != "" || isChatEmpty st

/-- addMessage from the conversation store: appends one entry. -/
def addMessage (st : SubmitState) (text : String) (isAgent : Bool) : SubmitState :=
  { st with messages := st.messages ++ [{ text := text, isAgent := isAgent }] }

/-- Consuming one chunk of the stream inside the for-await loop of
handleSubmit.  The Bool component records whether a recording restart has
been scheduled; shouldRestart is the value decided before the stream was
opened.  On a done status the accumulated text is snapshotted and
cleared, the finalized agent message appended, the conversation saved
when an id exists, the waiting and in-flight flags cleared, and only
then, in hands-off mode, a restart scheduled. -/
def consumeChunk (shouldRestart : Bool) :
    SubmitState × Bool → Chunk → SubmitState × Bool
  | (st, sched), .status s =>
      let st := { st with streamStatus := s }
      if s == "done" then
        let finalText := st.streamingText
        let st := { st with streamingText := "" }
        let st :=
          if finalText != "" then
            let st := addMessage st finalText true
            if st.conversationId != "" then
              { st with savedConversations := st.savedConversations ++ [st.conversationId] }
            else st
          else st
        let st := { st with isWaitingForResponse := false, isSubmitting := false }
        if shouldRestart && st.handsOffMode then (st, true) else (st, sched)
      else if s == "evaluation_complete" then
        ({ st with evaluationUpdated := true }, sched)
      else (st, sched)
  | (st, sched), .conversationIdEv c => ({ st with conversationId := c }, sched)
  | (st, sched), .delta d => ({ st with streamingText := st.streamingText ++ d }, sched)

/-- Outcome of one handleSubmit call: the final state, whether the turn
event stream was opened at all, and whether a recording restart was
scheduled. -/
structure SubmitResult where
  state : SubmitState
  streamOpened : Bool
  restartScheduled : Bool
deriving Repr, DecidableEq

/-- handleSubmit of the batch SpeechTester.  chunks are the stream chunks
delivered before the stream ends; streamErr is some message when the
await of the stream throws after those chunks (none on normal
completion).  Guards: return at once when already submitting or not
allowed to submit, and when any lesson-selector field is unset.
Otherwise: decide the hands-off restart, clear the hands-off timer,
mark in-flight, append the learner message (or the dialogue-completion
marker, or nothing on an initialization turn), clear the transcript and
the streaming buffer, consume the stream, on an exception append the
synthetic error message and clear the flags, and in the finally block
clear the in-flight flag and reset the stream status. -/
def handleSubmit (st : SubmitState) (chunks : List Chunk)
    (streamErr : Option String) : SubmitResult :=
  if st.isSubmitting || !canSubmit st then
    { state := st, streamOpened := false, restartScheduled := false }
  else if st.level == "" || st.story == "" || st.sectionSel == "" || st.chapter == "" then
    { state := st, streamOpened := false, restartScheduled := false }
  else
    let shouldRestart := st.handsOffMode && st.recordingStatus == "idle"
      && jsTrim st.transcript != ""
    let st := { st with handsOffTimeoutPending := false, lastTranscript := "" }
    let st :=
      { st with
        isSubmitting := true
        streamStatus := "loading"
        isWaitingForResponse := true }
    let query := jsTrim st.transcript
    let st :=
      if query != "" then addMessage st query false
      else if isDialogueComplete st then addMessage st "Dialogue Reading completed" false
      else st
    let st := { st with transcript := "", streamingText := "" }
    let p := chunks.foldl (consumeChunk shouldRestart) (st, false)
    let st := p.1
    let st :=
      match streamErr with
      | some msg =>
          let st := addMessage st ("Error: " ++ msg) true
          { st with isWaitingForResponse := false, isSubmitting := false }
      | none => st
    let st := { st with isSubmitting := false, streamStatus := "idle" }
    { state := st, streamOpened := true, restartScheduled := p.2 }

end STA.Turn

/-! ## Batch transcription HTTP handler (handleTranscribeRequest) -/

namespace STA.Http

/-- Observable outcome of handleTranscribeRequest: the HTTP status, the
error field of an early-exit JSON body, whether transcribeAudioFile was
invoked, and the transcription result returned as the body when it was. -/
structure TranscribeOutcome where
  status : Nat
  earlyError : Option String
  backendInvoked : Bool
  resultBody : Option STA.Batch.TranscriptionResult
deriving Repr, DecidableEq

/-- handleTranscribeRequest from src/server/speech.ts.  byteLength is the
size of the request body; transcription is the TranscriptionResult the
awaited transcribeAudioFile call would produce.  OPTIONS gets 204,
non-POST gets 405, an empty body gets 400 with the No audio data provided
error and no backend call; otherwise the backend result is returned with
status 200 when it reports success and 500 when it does not. -/
def handleTranscribeRequest (method : String) (byteLength : Nat)
    (transcription : STA.Batch.TranscriptionResult) : TranscribeOutcome :=
  if method == "OPTIONS" then
    { status := 204, earlyError := none, backendInvoked := false, resultBody := none }
  else if method != "POST" then
    { status := 405, earlyError := some "Method not allowed",
      backendInvoked := false, resultBody := none }
  else if byteLength == 0 then
    { status := 400, earlyError := some "No audio data provided",
      backendInvoked := false, resultBody := none }
  else
    { status := if transcription.success then 200 else 500
      earlyError := none
      backendInvoked := true
      resultBody := some transcription }

end STA.Http

/-! ## Verification-side invariants -/

namespace STA.Batch

/-- Executor invariant of transcribeAudioFile: the resolve continuation
has run exactly once when the resolved flag is up and never otherwise,
and a result exists exactly when the flag is up. -/
def BatchInv (st : BatchState) : Prop :=
  st.resolveCount = (if st.resolved then 1 else 0) ∧ st.result.isSome = st.resolved

end STA.Batch

namespace STA.HandsOff

/-- Timer-world invariant: the timeout ref covers every pending deadline,
the armed-interval ref covers every pending countdown interval, and each
list holds at most one entry. -/
def HoInv (st : TimerState) : Prop :=
  (∀ tm ∈ st.deadlines, st.timeoutRef = some tm.id) ∧ st.deadlines.length ≤ 1 ∧
  (∀ i ∈ st.intervals, st.armedInterval = some i) ∧ st.intervals.length ≤ 1

end STA.HandsOff

namespace STA.Recording

/-- Recording-machine invariant: idle means no resources held, and never
more than one session holds resources. -/
def RecInv (st : RecState) : Prop :=
  (st.status = RecStatus.idle → st.activeSessions = 0) ∧ st.activeSessions ≤ 1

end STA.Recording

/-! ## Theorems -/

namespace STA.Pcm

/-- Helper: the clamped sample lies in the closed interval from -1 to 1. -/
theorem clampSample_mem (s : ℚ) : -1 ≤ clampSample s ∧ clampSample s ≤ 1 := by
  unfold clampSample
  refine ⟨le_max_left _ _, max_le (by norm_num) (min_le_left _ _)⟩

/-- Helper: truncation of a non-negative rational bounded by 32767. -/
theorem ratTrunc_nonneg_bounds (q : ℚ) (h0 : 0 ≤ q) (h1 : q ≤ 32767) :
    0 ≤ ratTrunc q ∧ ratTrunc q ≤ 32767 := by
  unfold ratTrunc
  rw [if_neg (not_lt.mpr h0)]
  constructor
  · exact Int.le_floor.mpr (by exact_mod_cast h0)
  · have h := (Int.floor_le q).trans h1
    exact_mod_cast h

/-- Helper: truncation of a negative rational bounded below by -32768. -/
theorem ratTrunc_neg_bounds (q : ℚ) (h0 : q < 0) (h1 : -32768 ≤ q) :
    -32768 ≤ ratTrunc q ∧ ratTrunc q ≤ 0 := by
  unfold ratTrunc
  rw [if_pos h0]
  constructor
  · have h := h1.trans (Int.le_ceil q)
    exact_mod_cast h
  · exact Int.ceil_le.mpr (by exact_mod_cast h0.le)

/-- Helper: inside the int16 range the ToInt16 wrap is the identity on
the truncated value. -/
theorem toInt16_eq_ratTrunc (q : ℚ) (h1 : -32768 ≤ ratTrunc q)
    (h2 : ratTrunc q ≤ 32767) : toInt16 q = ratTrunc q := by
  unfold toInt16
  dsimp only
  split <;> omega

end STA.Pcm

namespace STA.Pcm

/-- Claim C1, counterexample.  The sample -78647/131072 (an exactly
representable float32 value, about -0.60004) is clamped to itself; the
code stores ToInt16(-19661.75) = -19661 (truncation toward zero), while
the claimed formula round(s * 32768) gives -19662.  Hence the conversion
is not the claimed rounding. -/
theorem pcmConvert_not_round_counterexample :
    pcmConvert (-(78647 : ℚ) / 131072) = -19661 ∧
    pcmConvertSpec (-(78647 : ℚ) / 131072) = -19662 ∧
    pcmConvert (-(78647 : ℚ) / 131072) ≠ pcmConvertSpec (-(78647 : ℚ) / 131072) := by
  refine ⟨?_, ?_, ?_⟩
  · norm_num [pcmConvert, toInt16, ratTrunc, clampSample, max_def, min_def, Int.ceil_neg]
  · norm_num [pcmConvertSpec, clampSample, max_def, min_def, round_eq]
  · norm_num [pcmConvert, pcmConvertSpec, toInt16, ratTrunc, clampSample, max_def,
      min_def, Int.ceil_neg, round_eq]

/-- Claim C1, amended.  For every input sample the PCM conversion first
clamps to the interval from -1 to 1 and then maps deterministically to a
16-bit signed integer: negative clamped values map to the truncation
toward zero of s * 32768 and non-negative clamped values to the
truncation toward zero of s * 32767; the result always lies in the int16
range, so the modular wrap of the Int16Array store never engages and no
clipping is needed. -/
theorem pcmConvert_clamps_and_truncates (sample : ℚ) :
    pcmConvert sample =
      (if clampSample sample < 0 then ratTrunc (clampSample sample * 32768)
       else ratTrunc (clampSample sample * 32767)) ∧
    -32768 ≤ pcmConvert sample ∧ pcmConvert sample ≤ 32767 := by
  obtain ⟨hlo, hhi⟩ := clampSample_mem sample
  by_cases h : clampSample sample < 0
  · have hq0 : clampSample sample * 32768 < 0 := by nlinarith
    have hq1 : -32768 ≤ clampSample sample * 32768 := by nlinarith
    obtain ⟨hb1, hb2⟩ := ratTrunc_neg_bounds _ hq0 hq1
    have he : pcmConvert sample = ratTrunc (clampSample sample * 32768) := by
      simp only [pcmConvert, if_pos h]
      exact toInt16_eq_ratTrunc _ hb1 (by omega)
    refine ⟨by rw [he, if_pos h], by omega, by omega⟩
  · have h0 : 0 ≤ clampSample sample := not_lt.mp h
    have hq0 : 0 ≤ clampSample sample * 32767 := by nlinarith
    have hq1 : clampSample sample * 32767 ≤ 32767 := by nlinarith
    obtain ⟨hb1, hb2⟩ := ratTrunc_nonneg_bounds _ hq0 hq1
    have he : pcmConvert sample = ratTrunc (clampSample sample * 32767) := by
      simp only [pcmConvert, if_neg h]
      exact toInt16_eq_ratTrunc _ (by omega) hb2
    refine ⟨by rw [he, if_neg h], by omega, by omega⟩

end STA.Pcm

namespace STA.Transcript

/-- Helper: a run of recognizing events leaves the transcript unchanged. -/
theorem processEvents_recognizing (T : String) (recs : List String) :
    processEvents T (recs.map SpeechEvent.recognizing) = T := by
  induction recs generalizing T with
  | nil => rfl
  | cons r rs ih => simpa [processEvents, onMessage] using ih T

/-- Claim C2, confirmed.  Within a recording session, for every sequence
of recognizing events followed by one final recognized event, the
transcript afterwards is the previously accumulated transcript and the
newly recognized text joined by a single space and trimmed; the
recognizing events on their own change nothing. -/
theorem transcript_accumulation (T t : String) (lang : Option String)
    (recs : List String) :
    processEvents T (recs.map SpeechEvent.recognizing
        ++ [SpeechEvent.recognized t lang]) = jsTrim (T ++ " " ++ t) ∧
    processEvents T (recs.map SpeechEvent.recognizing) = T := by
  refine ⟨?_, processEvents_recognizing T recs⟩
  unfold processEvents
  rw [List.foldl_append]
  have h := processEvents_recognizing T recs
  unfold processEvents at h
  rw [h]
  rfl

end STA.Transcript

namespace STA.Batch

/-- Helper: a resolution never comes undone. -/
theorem transcribeStep_resolved_mono (st : BatchState) (e : BatchEvent)
    (h : st.resolved = true) : (transcribeStep st e).resolved = true := by
  cases e with
  | recognized t lang =>
      by_cases ht : t != "" <;> simp [transcribeStep, ht, h]
  | canceledError details => simp [transcribeStep, resolveResult, h]
  | canceledEndOfStream => simp [transcribeStep, resolveResult, h]
  | sessionStopped => simp [transcribeStep, resolveResult, h]
  | processingTimeoutFired => simp [transcribeStep, h]
  | hardTimeoutFired => simp [transcribeStep, h]

/-- Helper: monotonicity of the resolved flag along a run. -/
theorem transcribeFold_resolved_mono (evs : List BatchEvent) (st : BatchState)
    (h : st.resolved = true) : (evs.foldl transcribeStep st).resolved = true := by
  induction evs generalizing st with
  | nil => exact h
  | cons e rest ih => exact ih _ (transcribeStep_resolved_mono st e h)

/-- Helper: the executor invariant is preserved by every occurrence. -/
theorem transcribeStep_inv (st : BatchState) (e : BatchEvent)
    (h : BatchInv st) : BatchInv (transcribeStep st e) := by
  obtain ⟨h1, h2⟩ := h
  cases e with
  | recognized t lang =>
      by_cases ht : t != "" <;> simp [transcribeStep, BatchInv, ht, h1, h2]
  | canceledError details =>
      by_cases hr : st.resolved <;> simp_all [transcribeStep, resolveResult, BatchInv]
  | canceledEndOfStream =>
      by_cases hr : st.resolved <;> simp_all [transcribeStep, resolveResult, BatchInv]
  | sessionStopped =>
      by_cases hr : st.resolved <;> simp_all [transcribeStep, resolveResult, BatchInv]
  | processingTimeoutFired =>
      by_cases hr : st.resolved <;> simp_all [transcribeStep, resolveResult, BatchInv]
  | hardTimeoutFired =>
      by_cases hr : st.resolved <;> simp_all [transcribeStep, resolveResult, BatchInv]

/-- Helper: the executor invariant is preserved along a run. -/
theorem transcribeFold_inv (evs : List BatchEvent) (st : BatchState)
    (h : BatchInv st) : BatchInv (evs.foldl transcribeStep st) := by
  induction evs generalizing st with
  | nil => exact h
  | cons e rest ih => exact ih _ (transcribeStep_inv st e h)

/-- Helper: the executor invariant holds after every run. -/
theorem transcribeRun_inv (evs : List BatchEvent) : BatchInv (transcribeRun evs) :=
  transcribeFold_inv evs initBatch (by simp [BatchInv, initBatch])

end STA.Batch

namespace STA.Batch

/-- Helper: if the hard timeout occurs somewhere in the run, the promise
ends up resolved. -/
theorem transcribeFold_resolved_of_hard (evs : List BatchEvent) (st : BatchState)
    (h : BatchEvent.hardTimeoutFired ∈ evs) :
    (evs.foldl transcribeStep st).resolved = true := by
  induction evs generalizing st with
  | nil => cases h
  | cons e rest ih =>
      rw [List.foldl_cons]
      rcases List.mem_cons.mp h with he | hrest
      · subst he
        apply transcribeFold_resolved_mono
        by_cases hr : st.resolved = true
        · simp [transcribeStep, hr]
        · simp only [Bool.not_eq_true] at hr
          simp [transcribeStep, resolveResult, hr]
      · exact ih _ hrest

/-- Claim C4, confirmed.  The batch transcription always terminates with
a result: the processing timeout is scheduled at
max(5000 ms, (byteLength / (sampleRate * 2) + 3) * 1000 ms) and is never
below five seconds; the resolve continuation runs at most once on every
run; whenever the 45 second hard ceiling fires during a run the promise
is resolved, holds a result, and was resolved exactly once; and when
nothing resolved earlier the hard ceiling itself resolves with the
Transcription timeout error string over the partial text. -/
theorem transcribeAudioFile_terminates :
    (∀ byteLength sampleRate : ℚ,
        processingTimeoutMs byteLength sampleRate =
          max 5000 ((byteLength / (sampleRate * 2) + 3) * 1000) ∧
        5000 ≤ processingTimeoutMs byteLength sampleRate) ∧
    (∀ evs : List BatchEvent, (transcribeRun evs).resolveCount ≤ 1) ∧
    (∀ evs : List BatchEvent, BatchEvent.hardTimeoutFired ∈ evs →
        (transcribeRun evs).resolved = true ∧
        (transcribeRun evs).result.isSome = true ∧
        (transcribeRun evs).resolveCount = 1) ∧
    (∀ pre : List BatchEvent, (transcribeRun pre).resolved = false →
        (transcribeRun (pre ++ [BatchEvent.hardTimeoutFired])).result =
          some { success := false
                 text := jsTrim (transcribeRun pre).fullText
                 segments := (transcribeRun pre).segments
                 error := some "Transcription timeout" }) := by
  refine ⟨?_, ?_, ?_, ?_⟩
  · intro byteLength sampleRate
    exact ⟨rfl, le_max_left _ _⟩
  · intro evs
    obtain ⟨h1, _⟩ := transcribeRun_inv evs
    rw [h1]
    split <;> omega
  · intro evs h
    obtain ⟨h1, h2⟩ := transcribeRun_inv evs
    have hres : (transcribeRun evs).resolved = true :=
      transcribeFold_resolved_of_hard evs initBatch h
    refine ⟨hres, by rw [h2, hres], by simp [h1, hres]⟩
  · intro pre hpre
    unfold transcribeRun at hpre ⊢
    rw [List.foldl_append]
    simp [transcribeStep, resolveResult, hpre]

end STA.Batch

namespace STA.HandsOff

/-- Helper: when the ref covers every pending deadline, clearing the ref
cancels every pending deadline. -/
theorem clearTimeoutRef_covered (st : TimerState)
    (hcov : ∀ tm ∈ st.deadlines, st.timeoutRef = some tm.id) :
    clearTimeoutRef st = { st with deadlines := [], timeoutRef := none } := by
  obtain ⟨nid, dls, ivs, tref, aint, ltr, subs⟩ := st
  cases tref with
  | none =>
      cases dls with
      | nil => rfl
      | cons tm rest => exact absurd (hcov tm (List.mem_cons_self _ _)) (by simp)
  | some i =>
      have hfil : dls.filter (fun tm => tm.id != i) = [] := by
        rw [List.filter_eq_nil_iff]
        intro tm hm
        have hx := hcov tm hm
        simp only [Option.some.injEq] at hx
        simp [bne_iff_ne]
        omega
      simp [clearTimeoutRef, hfil]

/-- Helper: when the armed-interval ref covers every pending countdown
interval, clearing it cancels every pending interval. -/
theorem clearArmedInterval_covered (st : TimerState)
    (hcov : ∀ i ∈ st.intervals, st.armedInterval = some i) :
    clearArmedInterval st = { st with intervals := [], armedInterval := none } := by
  obtain ⟨nid, dls, ivs, tref, aint, ltr, subs⟩ := st
  cases aint with
  | none =>
      cases ivs with
      | nil => rfl
      | cons i rest => exact absurd (hcov i (List.mem_cons_self _ _)) (by simp)
  | some i =>
      have hfil : ivs.filter (fun j => j != i) = [] := by
        rw [List.filter_eq_nil_iff]
        intro j hm
        have hx := hcov j hm
        simp only [Option.some.injEq] at hx
        simp [bne_iff_ne]
        omega
      simp [clearArmedInterval, hfil]

/-- Helper: closed form of an effect rerun under the invariant.  Either
nothing is armed and every pending deadline and countdown is gone, or
exactly the one freshly armed deadline (full 3000 ms from now) and the
one fresh countdown interval are pending. -/
theorem hoStep_effectRun_eq (st : TimerState) (t : Nat) (d : Deps)
    (h : HoInv st) :
    hoStep st (TimerEvent.effectRun t d) =
      (if armCond d st.lastTranscript then
        { nextId := st.nextId + 2
          deadlines := [{ id := st.nextId + 1, deadline := t + 3000, deps := d }]
          intervals := [st.nextId]
          timeoutRef := some (st.nextId + 1)
          armedInterval := some st.nextId
          lastTranscript := d.transcript
          submissions := st.submissions }
      else
        { st with deadlines := [], intervals := [],
                  timeoutRef := none, armedInterval := none }) := by
  obtain ⟨hcov, _, hicov, _⟩ := h
  show (let st1 := clearArmedInterval (clearTimeoutRef st);
        let st2 := clearTimeoutRef st1;
        if armCond d st2.lastTranscript then _ else st2) = _
  rw [clearTimeoutRef_covered st hcov]
  rw [clearArmedInterval_covered _ (by simpa using hicov)]
  rfl

end STA.HandsOff

namespace STA.HandsOff

/-- Helper: clearing the countdown interval does not touch the
submission counter. -/
theorem clearArmedInterval_submissions (st : TimerState) :
    (clearArmedInterval st).submissions = st.submissions := by
  unfold clearArmedInterval
  cases st.armedInterval <;> rfl

/-- Helper: every occurrence preserves the timer-world invariant. -/
theorem hoStep_inv (st : TimerState) (e : TimerEvent) (h : HoInv st) :
    HoInv (hoStep st e) := by
  cases e with
  | effectRun t d =>
      rw [hoStep_effectRun_eq st t d h]
      split
      · exact ⟨by simp, by simp, by simp, by simp⟩
      · exact ⟨by simp, by simp, by simp, by simp⟩
  | fireDeadline =>
      obtain ⟨hcov, hlen, hicov, hilen⟩ := h
      obtain ⟨nid, dls, ivs, tref, aint, ltr, subs⟩ := st
      cases dls with
      | nil => exact ⟨hcov, hlen, hicov, hilen⟩
      | cons tm rest =>
          have hrest : rest = [] := by simpa using hlen
          subst hrest
          have hca := clearArmedInterval_covered
            ⟨nid, [], ivs, tref, aint, ltr, subs⟩ (by simpa using hicov)
          simp only [hoStep]
          rw [hca]
          split
          · exact ⟨by simp, by simp, by simp, by simp⟩
          · exact ⟨by simp, by simp, by simp, by simp⟩

/-- Helper: the invariant holds along every run. -/
theorem hoFold_inv (evs : List TimerEvent) (st : TimerState) (h : HoInv st) :
    HoInv (evs.foldl hoStep st) := by
  induction evs generalizing st with
  | nil => exact h
  | cons e rest ih => exact ih _ (hoStep_inv st e h)

/-- Helper: the invariant holds in every reachable timer-world state. -/
theorem hoRun_inv (evs : List TimerEvent) : HoInv (hoRun evs) :=
  hoFold_inv evs initTimers ⟨by simp [initTimers], by simp [initTimers],
    by simp [initTimers], by simp [initTimers]⟩

/-- Helper: appending one occurrence steps the run once. -/
theorem hoRun_snoc (evs : List TimerEvent) (e : TimerEvent) :
    hoRun (evs ++ [e]) = hoStep (hoRun evs) e := by
  unfold hoRun
  rw [List.foldl_append]
  rfl

/-- Claim C5, confirmed.  At most one 3 second deadline and one countdown
interval are ever pending; after any effect rerun either nothing is
pending or exactly the freshly armed deadline is, with a full 3000 ms
measured from the rerun time (so re-arming inside the window resets the
full three seconds); and a firing deadline triggers a submission only
when the arming conditions it closed over (hands-off mode on, non-blank
transcript, not submitting) still hold. -/
theorem hands_off_single_deadline :
    (∀ evs : List TimerEvent,
        (hoRun evs).deadlines.length ≤ 1 ∧ (hoRun evs).intervals.length ≤ 1) ∧
    (∀ (evs : List TimerEvent) (t : Nat) (d : Deps),
        (hoRun (evs ++ [TimerEvent.effectRun t d])).deadlines = [] ∨
        ∃ tm : ArmedTimer,
          (hoRun (evs ++ [TimerEvent.effectRun t d])).deadlines = [tm] ∧
          tm.deadline = t + 3000 ∧ tm.deps = d) ∧
    (∀ evs : List TimerEvent,
        (hoRun (evs ++ [TimerEvent.fireDeadline])).submissions ≠
          (hoRun evs).submissions →
        ∃ (tm : ArmedTimer) (rest : List ArmedTimer),
          (hoRun evs).deadlines = tm :: rest ∧
          tm.deps.handsOffMode = true ∧ jsTrim tm.deps.transcript ≠ "" ∧
          tm.deps.isSubmitting = false) := by
  refine ⟨?_, ?_, ?_⟩
  · intro evs
    obtain ⟨_, h2, _, h4⟩ := hoRun_inv evs
    exact ⟨h2, h4⟩
  · intro evs t d
    rw [hoRun_snoc, hoStep_effectRun_eq _ _ _ (hoRun_inv evs)]
    split
    · right
      exact ⟨_, rfl, rfl, rfl⟩
    · left
      rfl
  · intro evs h
    rw [hoRun_snoc] at h
    generalize hst : hoRun evs = st at h ⊢
    obtain ⟨nid, dls, ivs, tref, aint, ltr, subs⟩ := st
    cases dls with
    | nil => simp [hoStep] at h
    | cons tm rest =>
        by_cases hc : (tm.deps.handsOffMode && jsTrim tm.deps.transcript != ""
            && !tm.deps.isSubmitting) = true
        · simp only [Bool.and_eq_true, bne_iff_ne, ne_eq,
            Bool.not_eq_true'] at hc
          exact ⟨tm, rest, rfl, hc.1.1, hc.1.2, hc.2⟩
        · exfalso
          apply h
          simp [hoStep, hc, clearArmedInterval_submissions]

end STA.HandsOff

namespace STA.Session

/-- Claim C7, confirmed.  With either credential missing, opening a
speech session sends exactly one error event and hard-closes the
connection with the policy code 1008, creating no recognizer and no
audio stream; and the batch Azure provider returns the
not-configured error response without ever constructing the backend
recognizer. -/
theorem session_refused_when_unconfigured (key region : String)
    (evs : List STA.Batch.BatchEvent) (h : key = "" ∨ region = "") :
    speechWebSocketOpen key region =
      [WsAction.sendErrorEvent "Azure Speech credentials not configured",
       WsAction.closeConn 1008 "Azure credentials not configured"] ∧
    WsAction.initRecognition ∉ speechWebSocketOpen key region ∧
    azureTranscribe key region evs =
      { response := some { text := ""
                           error := some "Azure Speech credentials not configured" }
        recognizerCreated := false } := by
  have hb : (key == "" || region == "") = true := by
    rcases h with h | h <;> simp [h]
  have hc : azureIsConfigured key region = false := by
    rcases h with h | h <;> simp [azureIsConfigured, h]
  refine ⟨?_, ?_, ?_⟩
  · simp [speechWebSocketOpen, hb]
  · simp [speechWebSocketOpen, hb]
  · simp [azureTranscribe, hc]

/-- Witness for claim C7 at the concrete credentials: empty key,
non-empty region. -/
theorem session_refused_when_unconfigured_witness :
    (("" : String) = "" ∨ ("westeurope" : String) = "") ∧
    (speechWebSocketOpen "" "westeurope" =
      [WsAction.sendErrorEvent "Azure Speech credentials not configured",
       WsAction.closeConn 1008 "Azure credentials not configured"] ∧
     WsAction.initRecognition ∉ speechWebSocketOpen "" "westeurope" ∧
     azureTranscribe "" "westeurope" [] =
      { response := some { text := ""
                           error := some "Azure Speech credentials not configured" }
        recognizerCreated := false }) :=
  ⟨Or.inl rfl, session_refused_when_unconfigured "" "westeurope" [] (Or.inl rfl)⟩

end STA.Session

namespace STA.Cleanup

/-- Claim C8, confirmed.  Capture and session teardown are idempotent:
immediately repeating cleanupSpeech (guarded by the cleanedUp flag) or
cleanupAudio (which nulls every ref it releases) leaves the state fixed
and releases no resource a second time. -/
theorem cleanup_idempotent :
    (∀ d : SpeechSocketData,
        cleanupSpeech (cleanupSpeech d).1 = ((cleanupSpeech d).1, [])) ∧
    (∀ c : ClientAudio,
        cleanupAudio (cleanupAudio c).1 = ((cleanupAudio c).1, [])) := by
  constructor
  · intro d
    obtain ⟨cu, rg, ps⟩ := d
    cases cu <;> cases rg <;> cases ps <;> rfl
  · intro c
    rfl

end STA.Cleanup

namespace STA.Recording

/-- Helper: every occurrence preserves the recording-machine invariant. -/
theorem recStep_inv (st : RecState) (e : RecEvent) (h : RecInv st) :
    RecInv (recStep st e) := by
  obtain ⟨h1, h2⟩ := h
  cases e with
  | startCall cap =>
      cases hs : st.status with
      | idle =>
          have h0 := h1 hs
          refine ⟨?_, ?_⟩ <;> simp [recStep, hs, h0]
      | connecting => simpa [recStep, hs] using ⟨h1, h2⟩
      | recording => simpa [recStep, hs] using ⟨h1, h2⟩
  | startFail => exact ⟨fun _ => rfl, by simp [recStep]⟩
  | wsOpened =>
      cases hs : st.status with
      | idle => simpa [recStep, hs] using ⟨h1, h2⟩
      | connecting =>
          refine ⟨?_, ?_⟩ <;> simp [recStep, hs, h2]
      | recording => simpa [recStep, hs] using ⟨h1, h2⟩
  | stopCall => exact ⟨fun _ => rfl, by simp [recStep]⟩
  | wsClosed => exact ⟨fun _ => rfl, by simp [recStep]⟩

/-- Helper: the invariant holds along every run. -/
theorem recFold_inv (evs : List RecEvent) (st : RecState) (h : RecInv st) :
    RecInv (evs.foldl recStep st) := by
  induction evs generalizing st with
  | nil => exact h
  | cons e rest ih => exact ih _ (recStep_inv st e h)

/-- Claim C9, confirmed.  In every reachable state at most one recording
session holds device and transport resources, and a start-recording call
is a no-op whenever the current status read through statusRef is not
idle, whatever status value a stale closure captured when the delayed
restart was scheduled. -/
theorem at_most_one_recording_session :
    (∀ evs : List RecEvent, (recRun evs).activeSessions ≤ 1) ∧
    (∀ (st : RecState) (captured : RecStatus), st.status ≠ RecStatus.idle →
        recStep st (RecEvent.startCall captured) = st) := by
  constructor
  · intro evs
    exact (recFold_inv evs { status := RecStatus.idle, activeSessions := 0 }
      ⟨fun _ => rfl, by norm_num⟩).2
  · intro st cap hne
    simp [recStep, hne]

end STA.Recording

namespace STA.Http

/-- Claim C10, confirmed.  A POST with an empty body gets 400 with the
No audio data provided error and the backend is never invoked; for a
non-empty body the backend is invoked and the response status is 200
exactly when the transcription result reports success and 500
otherwise, with the result as the body. -/
theorem transcribe_endpoint_statuses :
    (∀ r : STA.Batch.TranscriptionResult,
        handleTranscribeRequest "POST" 0 r =
          { status := 400, earlyError := some "No audio data provided",
            backendInvoked := false, resultBody := none }) ∧
    (∀ (n : Nat) (r : STA.Batch.TranscriptionResult),
        (handleTranscribeRequest "POST" (n + 1) r).backendInvoked = true ∧
        (handleTranscribeRequest "POST" (n + 1) r).status =
          (if r.success then 200 else 500) ∧
        (handleTranscribeRequest "POST" (n + 1) r).resultBody = some r) := by
  constructor
  · intro r
    rfl
  · intro n r
    refine ⟨?_, ?_, ?_⟩ <;> simp [handleTranscribeRequest]

end STA.Http

namespace STA.Turn

/-- Claim C3, confirmed.  A turn submission issued while one is already
in flight, or while a required lesson-selector field is unset outside
the dialogue-complete auto-advance, is a no-op: the state is untouched
(so no history entry is appended) and no event stream is opened. -/
theorem submit_inflight_noop (st : SubmitState) (chunks : List Chunk)
    (streamErr : Option String)
    (h : st.isSubmitting = true ∨
      ((st.level = "" ∨ st.story = "" ∨ st.sectionSel = "" ∨ st.chapter = "") ∧
       isDialogueComplete st = false)) :
    handleSubmit st chunks streamErr =
      { state := st, streamOpened := false, restartScheduled := false } := by
  unfold handleSubmit
  rcases h with h | ⟨hf, hd⟩
  · have hb : (st.isSubmitting || !canSubmit st) = true := by simp [h]
    rw [if_pos hb]
  · by_cases hs : (st.isSubmitting || !canSubmit st) = true
    · rw [if_pos hs]
    · have hb : (st.level == "" || st.story == "" || st.sectionSel == ""
          || st.chapter == "") = true := by
        rcases hf with h | h | h | h <;> simp [h]
      rw [if_neg hs, if_pos hb]

/-- Witness for claim C3 at a concrete in-flight state. -/
theorem submit_inflight_noop_witness :
    handleSubmit
      { isSubmitting := true, isWaitingForResponse := true, streamStatus := "loading",
        level := "A1", story := "birds", sectionSel := "s1", chapter := "c1",
        lastClientStatus := "", transcript := "oi", streamingText := "",
        messages := [], handsOffMode := false, recordingStatus := "idle",
        handsOffTimeoutPending := false, lastTranscript := "",
        conversationId := "", evaluationUpdated := false, savedConversations := [] }
      [Chunk.status "done"] none =
      { state :=
          { isSubmitting := true, isWaitingForResponse := true, streamStatus := "loading",
            level := "A1", story := "birds", sectionSel := "s1", chapter := "c1",
            lastClientStatus := "", transcript := "oi", streamingText := "",
            messages := [], handsOffMode := false, recordingStatus := "idle",
            handsOffTimeoutPending := false, lastTranscript := "",
            conversationId := "", evaluationUpdated := false, savedConversations := [] }
        streamOpened := false
        restartScheduled := false } :=
  submit_inflight_noop _ [Chunk.status "done"] none (Or.inl rfl)

end STA.Turn

namespace STA.Turn

/-- Helper: while no done status has been consumed, the restart flag
stays as it was. -/
theorem consumeChunk_fold_sched (sr : Bool) (chunks : List Chunk)
    (st : SubmitState) (b : Bool)
    (h : ∀ s, Chunk.status s ∈ chunks → s ≠ "done") :
    (chunks.foldl (consumeChunk sr) (st, b)).2 = b := by
  induction chunks generalizing st b with
  | nil => rfl
  | cons c cs ih =>
      have htail : ∀ s, Chunk.status s ∈ cs → s ≠ "done" :=
        fun s hm => h s (List.mem_cons_of_mem _ hm)
      rw [List.foldl_cons]
      cases c with
      | status s =>
          have hs : (s == "done") = false := by
            simpa using h s (List.mem_cons_self _ _)
          by_cases he : (s == "evaluation_complete") = true
          · simp only [consumeChunk, hs, he, Bool.false_eq_true, if_false, if_true]
            exact ih _ _ htail
          · simp only [consumeChunk, hs, Bool.false_eq_true, if_false, if_neg he]
            exact ih _ _ htail
      | conversationIdEv c2 =>
          simp only [consumeChunk]
          exact ih _ _ htail
      | delta d =>
          simp only [consumeChunk]
          exact ih _ _ htail

/-- Claim C6, counterexample.  A stream failure arriving after the done
status has been consumed (which the stream allows: evaluation events
follow done) still leaves the hands-off recording restart scheduled,
while the synthetic error message is appended: the pipeline does attempt
an auto-resume on this failing run, contradicting the claim that no
auto-resume is attempted whenever the stream fails. -/
theorem stream_failure_resumes_counterexample :
    (handleSubmit
      { isSubmitting := false, isWaitingForResponse := false, streamStatus := "idle",
        level := "A1", story := "birds", sectionSel := "s1", chapter := "c1",
        lastClientStatus := "", transcript := "hi", streamingText := "",
        messages := [], handsOffMode := true, recordingStatus := "idle",
        handsOffTimeoutPending := false, lastTranscript := "",
        conversationId := "", evaluationUpdated := false, savedConversations := [] }
      [Chunk.status "done"] (some "network")).restartScheduled = true ∧
    (handleSubmit
      { isSubmitting := false, isWaitingForResponse := false, streamStatus := "idle",
        level := "A1", story := "birds", sectionSel := "s1", chapter := "c1",
        lastClientStatus := "", transcript := "hi", streamingText := "",
        messages := [], handsOffMode := true, recordingStatus := "idle",
        handsOffTimeoutPending := false, lastTranscript := "",
        conversationId := "", evaluationUpdated := false, savedConversations := [] }
      [Chunk.status "done"] (some "network")).state.messages =
      [{ text := "hi", isAgent := false },
       { text := "Error: network", isAgent := true }] :=
  ⟨rfl, rfl⟩

/-- Claim C6, amended.  Whenever the stream of an opened turn fails, the
pipeline appends the synthetic error message as the last history entry
and clears the in-flight and waiting flags; and if no done status was
consumed before the failure, no recording auto-resume is scheduled (a
restart decided at a done status consumed earlier in the same stream
remains scheduled). -/
theorem stream_failure_recovery (st : SubmitState) (chunks : List Chunk)
    (msg : String)
    (hopen : (handleSubmit st chunks (some msg)).streamOpened = true) :
    (∃ pre : List Message,
        (handleSubmit st chunks (some msg)).state.messages =
          pre ++ [{ text := "Error: " ++ msg, isAgent := true }]) ∧
    (handleSubmit st chunks (some msg)).state.isSubmitting = false ∧
    (handleSubmit st chunks (some msg)).state.isWaitingForResponse = false ∧
    ((∀ s, Chunk.status s ∈ chunks → s ≠ "done") →
        (handleSubmit st chunks (some msg)).restartScheduled = false) := by
  by_cases h1 : (st.isSubmitting || !canSubmit st) = true
  · exfalso
    unfold handleSubmit at hopen
    rw [if_pos h1] at hopen
    exact Bool.false_ne_true hopen
  · by_cases h2 : (st.level == "" || st.story == "" || st.sectionSel == ""
        || st.chapter == "") = true
    · exfalso
      unfold handleSubmit at hopen
      rw [if_neg h1, if_pos h2] at hopen
      exact Bool.false_ne_true hopen
    · unfold handleSubmit
      rw [if_neg h1, if_neg h2]
      refine ⟨⟨_, rfl⟩, rfl, rfl, ?_⟩
      intro hnd
      exact consumeChunk_fold_sched _ chunks _ false hnd

end STA.Turn

namespace STA.Turn

/-- Witness for the amended claim C6 at a concrete opened turn whose
stream fails after one delta chunk. -/
theorem stream_failure_recovery_witness :
    (∃ pre : List Message,
        (handleSubmit
          { isSubmitting := false, isWaitingForResponse := false, streamStatus := "idle",
            level := "A1", story := "birds", sectionSel := "s1", chapter := "c1",
            lastClientStatus := "", transcript := "oi", streamingText := "",
            messages := [], handsOffMode := false, recordingStatus := "idle",
            handsOffTimeoutPending := false, lastTranscript := "",
            conversationId := "", evaluationUpdated := false, savedConversations := [] }
          [Chunk.delta "He"] (some "boom")).state.messages =
          pre ++ [{ text := "Error: " ++ "boom", isAgent := true }]) ∧
    (handleSubmit
      { isSubmitting := false, isWaitingForResponse := false, streamStatus := "idle",
        level := "A1", story := "birds", sectionSel := "s1", chapter := "c1",
        lastClientStatus := "", transcript := "oi", streamingText := "",
        messages := [], handsOffMode := false, recordingStatus := "idle",
        handsOffTimeoutPending := false, lastTranscript := "",
        conversationId := "", evaluationUpdated := false, savedConversations := [] }
      [Chunk.delta "He"] (some "boom")).state.isSubmitting = false ∧
    (handleSubmit
      { isSubmitting := false, isWaitingForResponse := false, streamStatus := "idle",
        level := "A1", story := "birds", sectionSel := "s1", chapter := "c1",
        lastClientStatus := "", transcript := "oi", streamingText := "",
        messages := [], handsOffMode := false, recordingStatus := "idle",
        handsOffTimeoutPending := false, lastTranscript := "",
        conversationId := "", evaluationUpdated := false, savedConversations := [] }
      [Chunk.delta "He"] (some "boom")).state.isWaitingForResponse = false ∧
    ((∀ s, Chunk.status s ∈ [Chunk.delta "He"] → s ≠ "done") →
        (handleSubmit
          { isSubmitting := false, isWaitingForResponse := false, streamStatus := "idle",
            level := "A1", story := "birds", sectionSel := "s1", chapter := "c1",
            lastClientStatus := "", transcript := "oi", streamingText := "",
            messages := [], handsOffMode := false, recordingStatus := "idle",
            handsOffTimeoutPending := false, lastTranscript := "",
            conversationId := "", evaluationUpdated := false, savedConversations := [] }
          [Chunk.delta "He"] (some "boom")).restartScheduled = false) :=
  stream_failure_recovery
    { isSubmitting := false, isWaitingForResponse := false, streamStatus := "idle",
      level := "A1", story := "birds", sectionSel := "s1", chapter := "c1",
      lastClientStatus := "", transcript := "oi", streamingText := "",
      messages := [], handsOffMode := false, recordingStatus := "idle",
      handsOffTimeoutPending := false, lastTranscript := "",
      conversationId := "", evaluationUpdated := false, savedConversations := [] }
    [Chunk.delta "He"] "boom" rfl

end STA.Turn
